import Mathlib

/-!
Verification of the voxblox camera frustum model
(`src/voxblox/src/utils/camera_model.cc`).

The C++ code works on Eigen 3-vectors of doubles and on rigid transforms
(`kindr` quaternion transforms).  We embed it over the real numbers:
`Point` is `Fin 3 → ℝ`, a `Transformation` is a rotation matrix together
with a translation vector, and each mutating member function becomes a
state transformer `CameraModel → CameraModel`.
-/

namespace Voxblox

/-- A 3D point / vector, as in Eigen's `Vector3d`. -/
abbrev Point : Type := Fin 3 → ℝ

/-- Eigen `a.dot(b)` on 3-vectors. -/
def Point.dot (a b : Point) : ℝ :=
  a 0 * b 0 + a 1 * b 1 + a 2 * b 2

/-- Eigen `a.cross(b)` on 3-vectors. -/
def Point.cross (a b : Point) : Point :=
  ![a 1 * b 2 - a 2 * b 1, a 2 * b 0 - a 0 * b 2, a 0 * b 1 - a 1 * b 0]

/-- Eigen `v.norm()`: the Euclidean norm. -/
noncomputable def Point.nrm (v : Point) : ℝ :=
  Real.sqrt (v.dot v)

/-- Eigen `v.normalized()`: `v / ‖v‖`.  (For `v = 0` Eigen divides by
zero, producing NaNs; in the real model division by zero yields the zero
vector.  No claim exercises the degenerate case.) -/
noncomputable def Point.normalized (v : Point) : Point :=
  (v.nrm)⁻¹ • v

/-- A half-space boundary: `Plane` from `camera_model.h`,
with members `normal_` and `distance_`. -/
structure Plane where
  normal : Point
  distance : ℝ

/-- `Plane::setFromPoints`: normal is the normalized cross product of the
two edge vectors, distance is `normal.dot(p1)`. -/
noncomputable def Plane.setFromPoints (p1 p2 p3 : Point) : Plane :=
  let p1p2 : Point := p2 - p1
  let p1p3 : Point := p3 - p1
  let cr : Point := p1p2.cross p1p3
  { normal := cr.normalized, distance := cr.normalized.dot p1 }

/-- `Plane::setFromDistanceNormal`: direct assignment, no normalization. -/
def Plane.setFromDistanceNormal (normal : Point) (distance : ℝ) : Plane :=
  { normal := normal, distance := distance }

/-- `Plane::isPointInside`: returns `point.dot(normal_) >= distance_`. -/
def Plane.isPointInside (pl : Plane) (point : Point) : Prop :=
  point.dot pl.normal ≥ pl.distance

/-- Modelled from the spec: the rigid-transform type (`Transformation`,
an external `kindr` primitive not present under `src/`): a rotation plus
a translation.  The C++ type stores the rotation as a unit quaternion, so
it is rigid by construction; here the rotation is a plain 3×3 matrix and
rigidity (`IsRigid`) is an explicit hypothesis where a proof needs it. -/
structure Transformation where
  R : Matrix (Fin 3) (Fin 3) ℝ
  t : Point

/-- The rotation part of a rigid transform is orthogonal. -/
def Transformation.IsRigid (T : Transformation) : Prop :=
  T.R.transpose * T.R = 1

/-- Composition `A * B` of rigid transforms. -/
noncomputable def Transformation.comp (A B : Transformation) : Transformation :=
  { R := A.R * B.R, t := A.R.mulVec B.t + A.t }

/-- `T.inverse()` of a rigid transform: `(Rᵀ, -Rᵀ t)`. -/
noncomputable def Transformation.inverse (T : Transformation) : Transformation :=
  { R := T.R.transpose, t := -(T.R.transpose.mulVec T.t) }

/-- The identity transform (default-constructed `Transformation`). -/
def Transformation.idT : Transformation :=
  { R := 1, t := fun _ => 0 }

/-- Applying a rigid transform to a point: `T * p = R p + t`. -/
noncomputable def transformPoint (T : Transformation) (p : Point) : Point :=
  T.R.mulVec p + T.t

/-- The mutable state of a `CameraModel`. -/
structure CameraModel where
  untransformed_corners : List Point
  T_C_B : Transformation
  T_G_C : Transformation
  bounding_planes : List Plane
  aabb_min : Point
  aabb_max : Point
  initialized : Bool

/-- Modelled from the spec: the freshly constructed `CameraModel` (the
class declaration with its member initializers lives in the header, which
is not under `src/`).  Per the spec, `initialized` starts false and
`boundingPlanes` starts empty; the extrinsics default to identity. -/
noncomputable def camInit : CameraModel :=
  { untransformed_corners := []
    T_C_B := Transformation.idT
    T_G_C := Transformation.idT
    bounding_planes := []
    aabb_min := fun _ => 0
    aabb_max := fun _ => 0
    initialized := false }

/-- Minimum of a list of reals.  The C++ loop starts the fold at the
sentinel `std::numeric_limits<double>::max()`, below which every finite
double lies, so over the reals the fold computes the plain minimum of the
(nonempty) list; we fold from the head. -/
def minList : List ℝ → ℝ
  | [] => 0
  | x :: xs => xs.foldl min x

/-- Maximum of a list of reals; sentinel `lowest()` modelled as for
`minList`. -/
def maxList : List ℝ → ℝ
  | [] => 0
  | x :: xs => xs.foldl max x

/-- `CameraModel::setIntrinsicsFromFoV`: clears and rebuilds the 8
untransformed corners (4 near, then 4 far) and sets `initialized_`. -/
noncomputable def setIntrinsicsFromFoV (horizontal_fov vertical_fov
    min_distance max_distance : ℝ) (m : CameraModel) : CameraModel :=
  let tan_half_horizontal_fov := Real.tan (horizontal_fov / 2)
  let tan_half_vertical_fov := Real.tan (vertical_fov / 2)
  { m with
    untransformed_corners :=
      [![min_distance, min_distance * tan_half_horizontal_fov,
         min_distance * tan_half_vertical_fov],
       ![min_distance, min_distance * tan_half_horizontal_fov,
         -(min_distance * tan_half_vertical_fov)],
       ![min_distance, -(min_distance * tan_half_horizontal_fov),
         -(min_distance * tan_half_vertical_fov)],
       ![min_distance, -(min_distance * tan_half_horizontal_fov),
         min_distance * tan_half_vertical_fov],
       ![max_distance, max_distance * tan_half_horizontal_fov,
         max_distance * tan_half_vertical_fov],
       ![max_distance, max_distance * tan_half_horizontal_fov,
         -(max_distance * tan_half_vertical_fov)],
       ![max_distance, -(max_distance * tan_half_horizontal_fov),
         -(max_distance * tan_half_vertical_fov)],
       ![max_distance, -(max_distance * tan_half_horizontal_fov),
         max_distance * tan_half_vertical_fov]]
    initialized := true }

/-- `CameraModel::setIntrinsicsFromFocalLength`: derives the FOV pair
from resolution and focal length and delegates. -/
noncomputable def setIntrinsicsFromFocalLength (resolution : Fin 2 → ℝ)
    (focal_length min_distance max_distance : ℝ) (m : CameraModel) :
    CameraModel :=
  let horizontal_fov := 2 * Real.arctan (resolution 0 / (2 * focal_length))
  let vertical_fov := 2 * Real.arctan (resolution 1 / (2 * focal_length))
  setIntrinsicsFromFoV horizontal_fov vertical_fov min_distance max_distance m

/-- `CameraModel::setExtrinsics`. -/
def setExtrinsics (T_C_B : Transformation) (m : CameraModel) : CameraModel :=
  { m with T_C_B := T_C_B }

/-- `CameraModel::getCameraPose`. -/
def getCameraPose (m : CameraModel) : Transformation := m.T_G_C

/-- `CameraModel::getBodyPose`: `T_G_C_ * T_C_B_`. -/
noncomputable def getBodyPose (m : CameraModel) : Transformation :=
  m.T_G_C.comp m.T_C_B

/-- `CameraModel::calculateBoundingPlanes`: early-out when not
initialized; otherwise transform the 8 corners, rebuild the 6 planes from
the fixed corner-index triples, and recompute the AABB. -/
noncomputable def calculateBoundingPlanes (m : CameraModel) : CameraModel :=
  if m.initialized = false then m
  else
    let transformed_corners :=
      m.untransformed_corners.map (transformPoint m.T_G_C)
    let c := fun i => transformed_corners.getD i (fun _ => 0)
    { m with
      bounding_planes :=
        [Plane.setFromPoints (c 0) (c 2) (c 1),   -- near
         Plane.setFromPoints (c 4) (c 5) (c 6),   -- far
         Plane.setFromPoints (c 3) (c 6) (c 2),   -- left
         Plane.setFromPoints (c 0) (c 5) (c 4),   -- right
         Plane.setFromPoints (c 3) (c 4) (c 7),   -- top
         Plane.setFromPoints (c 2) (c 6) (c 5)]   -- bottom
      aabb_min := fun i => minList (transformed_corners.map (fun q => q i))
      aabb_max := fun i => maxList (transformed_corners.map (fun q => q i)) }

/-- `CameraModel::setCameraPose`: store the pose, then recompute. -/
noncomputable def setCameraPose (cam_pose : Transformation)
    (m : CameraModel) : CameraModel :=
  calculateBoundingPlanes { m with T_G_C := cam_pose }

/-- `CameraModel::setBodyPose`: `setCameraPose(body_pose * T_C_B_.inverse())`. -/
noncomputable def setBodyPose (body_pose : Transformation)
    (m : CameraModel) : CameraModel :=
  setCameraPose (body_pose.comp m.T_C_B.inverse) m

/-- `CameraModel::getAabb`. -/
def getAabb (m : CameraModel) : Point × Point := (m.aabb_min, m.aabb_max)

/-- `CameraModel::isPointInView`: the point must be inside every bounding
plane (the loop returns false at the first failing plane). -/
def isPointInView (m : CameraModel) (point : Point) : Prop :=
  ∀ pl ∈ m.bounding_planes, pl.isPointInside point

end Voxblox

namespace Voxblox

lemma Point.dot_comm (a b : Point) : a.dot b = b.dot a := by
  unfold Point.dot; ring

lemma Point.dot_smul_right (a : Point) (r : ℝ) (b : Point) :
    a.dot (r • b) = r * a.dot b := by
  unfold Point.dot
  simp only [Pi.smul_apply, smul_eq_mul]
  ring

lemma Point.dot_smul_left (r : ℝ) (a b : Point) :
    (r • a).dot b = r * a.dot b := by
  unfold Point.dot
  simp only [Pi.smul_apply, smul_eq_mul]
  ring

/-- With a nondegenerate corner triple (positive squared cross product),
the normalized inside test of `Plane::setFromPoints` is equivalent to the
unnormalized one: normalization scales both sides by the same positive
factor. -/
lemma isPointInside_setFromPoints_iff (p1 p2 p3 q : Point)
    (h : 0 < ((p2 - p1).cross (p3 - p1)).dot ((p2 - p1).cross (p3 - p1))) :
    (Plane.setFromPoints p1 p2 p3).isPointInside q ↔
      q.dot ((p2 - p1).cross (p3 - p1)) ≥ ((p2 - p1).cross (p3 - p1)).dot p1 := by
  set c : Point := (p2 - p1).cross (p3 - p1) with hc
  have hs : 0 < Real.sqrt (c.dot c) := Real.sqrt_pos.mpr h
  have hinv : 0 < (Real.sqrt (c.dot c))⁻¹ := inv_pos.mpr hs
  unfold Plane.setFromPoints Plane.isPointInside Point.normalized Point.nrm
  simp only [← hc, ge_iff_le, Point.dot_smul_right, Point.dot_smul_left]
  exact mul_le_mul_left hinv

lemma calculateBoundingPlanes_T_G_C (m : CameraModel) :
    (calculateBoundingPlanes m).T_G_C = m.T_G_C := by
  unfold calculateBoundingPlanes
  split <;> rfl

lemma calculateBoundingPlanes_T_C_B (m : CameraModel) :
    (calculateBoundingPlanes m).T_C_B = m.T_C_B := by
  unfold calculateBoundingPlanes
  split <;> rfl

/-- Composing with the inverse of a rigid transform on the right cancels:
`(B * T⁻¹) * T = B`. -/
lemma Transformation.comp_inverse_comp (T B : Transformation)
    (hT : T.IsRigid) : (B.comp T.inverse).comp T = B := by
  unfold Transformation.IsRigid at hT
  unfold Transformation.comp Transformation.inverse
  cases B with
  | mk RB tB =>
    simp only [Transformation.mk.injEq]
    constructor
    · rw [Matrix.mul_assoc, hT, Matrix.mul_one]
    · rw [← Matrix.mulVec_mulVec, Matrix.mulVec_neg]
      exact add_neg_cancel_left _ _

/-- Claim C4: after `Plane::setFromPoints(p1, p2, p3)` the normal is the
normalized cross product of the edge vectors, the distance is
`dot(normal, p1)`, and `isPointInside(p)` holds iff
`dot(p, normal) >= distance`. -/
theorem claim_C4_setFromPoints_defines_plane (p1 p2 p3 : Point) :
    (Plane.setFromPoints p1 p2 p3).normal =
        ((p2 - p1).cross (p3 - p1)).normalized ∧
      (Plane.setFromPoints p1 p2 p3).distance =
        (Plane.setFromPoints p1 p2 p3).normal.dot p1 ∧
      ∀ p : Point, (Plane.setFromPoints p1 p2 p3).isPointInside p ↔
        p.dot (Plane.setFromPoints p1 p2 p3).normal ≥
          (Plane.setFromPoints p1 p2 p3).distance :=
  ⟨rfl, rfl, fun _ => Iff.rfl⟩

/-- Claim C8: a plane built from a non-collinear triple contains its own
defining point `p1`: the test is `>=`, so the boundary is included. -/
theorem claim_C8_defining_point_inside (p1 p2 p3 : Point)
    (h : (p2 - p1).cross (p3 - p1) ≠ 0) :
    (Plane.setFromPoints p1 p2 p3).isPointInside p1 := by
  unfold Plane.setFromPoints Plane.isPointInside
  exact le_of_eq (Point.dot_comm _ p1)

/-- Witness for C8 at the concrete triple `(0,0,0), (1,0,0), (0,1,0)`,
whose cross product is `(0,0,1) ≠ 0`. -/
theorem claim_C8_witness :
    (Point.cross ((![1, 0, 0] : Point) - ![0, 0, 0])
        ((![0, 1, 0] : Point) - ![0, 0, 0]) ≠ (0 : Point)) ∧
      (Plane.setFromPoints ![0, 0, 0] ![1, 0, 0] ![0, 1, 0]).isPointInside
        ![0, 0, 0] := by
  have h : Point.cross ((![1, 0, 0] : Point) - ![0, 0, 0])
      ((![0, 1, 0] : Point) - ![0, 0, 0]) ≠ (0 : Point) := by
    intro hc
    have h2 := congrFun hc 2
    simp [Point.cross] at h2
  exact ⟨h, claim_C8_defining_point_inside _ _ _ h⟩

/-- Claim C9: with an empty bounding-plane list (no recomputation ever
succeeded), `isPointInView` is vacuously true at every point. -/
theorem claim_C9_empty_planes_all_in_view (m : CameraModel)
    (h : m.bounding_planes = []) (p : Point) : isPointInView m p := by
  intro pl hpl
  rw [h] at hpl
  exact absurd hpl (List.not_mem_nil pl)

/-- Witness for C9: the freshly constructed model has no planes, so the
point `(5, 0, 0)` is reported in view. -/
theorem claim_C9_witness : isPointInView camInit ![5, 0, 0] :=
  claim_C9_empty_planes_all_in_view camInit rfl ![5, 0, 0]

/-- Claim C7: with `initialized = false`, both pose setters leave the
bounding-plane list unchanged (the recomputation early-outs). -/
theorem claim_C7_pose_before_intrinsics_no_op (m : CameraModel)
    (P : Transformation) (h : m.initialized = false) :
    (setCameraPose P m).bounding_planes = m.bounding_planes ∧
      (setBodyPose P m).bounding_planes = m.bounding_planes := by
  constructor <;>
    simp [setCameraPose, setBodyPose, calculateBoundingPlanes, h]

/-- Witness for C7 on the freshly constructed model and the identity
pose. -/
theorem claim_C7_witness :
    camInit.initialized = false ∧
      (setCameraPose Transformation.idT camInit).bounding_planes =
        camInit.bounding_planes ∧
      (setBodyPose Transformation.idT camInit).bounding_planes =
        camInit.bounding_planes :=
  ⟨rfl, claim_C7_pose_before_intrinsics_no_op camInit Transformation.idT rfl⟩

/-- Claim C10: `setCameraPose` always stores the pose (readable back via
`getCameraPose`), and when intrinsics were never set it changes none of
the corners, planes, or AABB fields. -/
theorem claim_C10_setCameraPose_stores_pose (m : CameraModel)
    (P : Transformation) :
    getCameraPose (setCameraPose P m) = P ∧
      (m.initialized = false →
        (setCameraPose P m).untransformed_corners = m.untransformed_corners ∧
          (setCameraPose P m).bounding_planes = m.bounding_planes ∧
          (setCameraPose P m).aabb_min = m.aabb_min ∧
          (setCameraPose P m).aabb_max = m.aabb_max) := by
  constructor
  · rw [getCameraPose, setCameraPose, calculateBoundingPlanes_T_G_C]
  · intro h
    refine ⟨?_, ?_, ?_, ?_⟩ <;> simp [setCameraPose, calculateBoundingPlanes, h]

/-- Witness for C10 on the freshly constructed (uninitialized) model. -/
theorem claim_C10_witness :
    getCameraPose (setCameraPose Transformation.idT camInit) =
        Transformation.idT ∧
      camInit.initialized = false ∧
      (setCameraPose Transformation.idT camInit).untransformed_corners =
        camInit.untransformed_corners ∧
      (setCameraPose Transformation.idT camInit).bounding_planes =
        camInit.bounding_planes ∧
      (setCameraPose Transformation.idT camInit).aabb_min = camInit.aabb_min ∧
      (setCameraPose Transformation.idT camInit).aabb_max = camInit.aabb_max :=
  ⟨(claim_C10_setCameraPose_stores_pose camInit Transformation.idT).1, rfl,
    (claim_C10_setCameraPose_stores_pose camInit Transformation.idT).2 rfl⟩

/-- Claim C6: for rigid extrinsics `T_C_B` (the C++ transform type is
rigid by construction), `setBodyPose(B)` followed by `getBodyPose()`
returns `B`: `(B * T_C_B⁻¹) * T_C_B = B`. -/
theorem claim_C6_body_pose_round_trip (m : CameraModel)
    (T B : Transformation) (hT : T.IsRigid) :
    getBodyPose (setBodyPose B (setExtrinsics T m)) = B := by
  unfold getBodyPose setBodyPose setCameraPose
  rw [calculateBoundingPlanes_T_G_C, calculateBoundingPlanes_T_C_B]
  exact Transformation.comp_inverse_comp T B hT

/-- Witness for C6: identity extrinsics (rigid) and a translation-only
body pose round-trip exactly. -/
theorem claim_C6_witness :
    Transformation.idT.IsRigid ∧
      getBodyPose (setBodyPose (Transformation.mk 1 ![1, 2, 3])
          (setExtrinsics Transformation.idT camInit)) =
        Transformation.mk 1 ![1, 2, 3] := by
  have h : Transformation.idT.IsRigid := by
    unfold Transformation.IsRigid Transformation.idT
    simp
  exact ⟨h, claim_C6_body_pose_round_trip camInit Transformation.idT
    (Transformation.mk 1 ![1, 2, 3]) h⟩

end Voxblox

namespace Voxblox

lemma forall_mem_iff_forall_fin {α : Type _} (l : List α) (d : α) (n : ℕ)
    (hl : l.length = n) (Q : α → Prop) :
    (∀ x ∈ l, Q x) ↔ ∀ i : Fin n, Q (l.getD i d) := by
  constructor
  · intro hall i
    have hi : (i : ℕ) < l.length := by rw [hl]; exact i.isLt
    rw [List.getD_eq_getElem l d hi]
    exact hall _ (List.getElem_mem hi)
  · intro hfin x hx
    obtain ⟨j, hj, hjx⟩ := List.mem_iff_getElem.mp hx
    have h2 := hfin ⟨j, hl ▸ hj⟩
    rwa [List.getD_eq_getElem l d hj, hjx] at h2

lemma foldl_min_le (xs : List ℝ) (x : ℝ) :
    ∀ y ∈ x :: xs, List.foldl min x xs ≤ y := by
  induction xs generalizing x with
  | nil =>
    intro y hy
    simp only [List.mem_singleton] at hy
    simp [hy]
  | cons a xs ih =>
    intro y hy
    simp only [List.foldl_cons]
    rcases List.mem_cons.mp hy with rfl | hy'
    · exact le_trans (ih (min y a) _ (List.mem_cons_self _ _)) (min_le_left _ _)
    rcases List.mem_cons.mp hy' with rfl | hy''
    · exact le_trans (ih (min x y) _ (List.mem_cons_self _ _)) (min_le_right _ _)
    · exact ih (min x a) y (List.mem_cons_of_mem _ hy'')

lemma foldl_min_mem (xs : List ℝ) (x : ℝ) :
    List.foldl min x xs ∈ x :: xs := by
  induction xs generalizing x with
  | nil => simp
  | cons a xs ih =>
    simp only [List.foldl_cons]
    rcases List.mem_cons.mp (ih (min x a)) with h' | h'
    · rcases min_choice x a with hmin | hmin
      · rw [h', hmin]; exact List.mem_cons_self _ _
      · rw [h', hmin]; exact List.mem_cons_of_mem _ (List.mem_cons_self _ _)
    · exact List.mem_cons_of_mem _ (List.mem_cons_of_mem _ h')

lemma foldl_max_ge (xs : List ℝ) (x : ℝ) :
    ∀ y ∈ x :: xs, y ≤ List.foldl max x xs := by
  induction xs generalizing x with
  | nil =>
    intro y hy
    simp only [List.mem_singleton] at hy
    simp [hy]
  | cons a xs ih =>
    intro y hy
    simp only [List.foldl_cons]
    rcases List.mem_cons.mp hy with rfl | hy'
    · exact le_trans (le_max_left _ _) (ih (max y a) _ (List.mem_cons_self _ _))
    rcases List.mem_cons.mp hy' with rfl | hy''
    · exact le_trans (le_max_right _ _) (ih (max x y) _ (List.mem_cons_self _ _))
    · exact ih (max x a) y (List.mem_cons_of_mem _ hy'')

lemma foldl_max_mem (xs : List ℝ) (x : ℝ) :
    List.foldl max x xs ∈ x :: xs := by
  induction xs generalizing x with
  | nil => simp
  | cons a xs ih =>
    simp only [List.foldl_cons]
    rcases List.mem_cons.mp (ih (max x a)) with h' | h'
    · rcases max_choice x a with hmax | hmax
      · rw [h', hmax]; exact List.mem_cons_self _ _
      · rw [h', hmax]; exact List.mem_cons_of_mem _ (List.mem_cons_self _ _)
    · exact List.mem_cons_of_mem _ (List.mem_cons_of_mem _ h')

lemma minList_le {l : List ℝ} (hl : l ≠ []) : ∀ y ∈ l, minList l ≤ y := by
  cases l with
  | nil => exact absurd rfl hl
  | cons x xs => exact foldl_min_le xs x

lemma minList_mem {l : List ℝ} (hl : l ≠ []) : minList l ∈ l := by
  cases l with
  | nil => exact absurd rfl hl
  | cons x xs => exact foldl_min_mem xs x

lemma maxList_ge {l : List ℝ} (hl : l ≠ []) : ∀ y ∈ l, y ≤ maxList l := by
  cases l with
  | nil => exact absurd rfl hl
  | cons x xs => exact foldl_max_ge xs x

lemma maxList_mem {l : List ℝ} (hl : l ≠ []) : maxList l ∈ l := by
  cases l with
  | nil => exact absurd rfl hl
  | cons x xs => exact foldl_max_mem xs x

/-- Claim C3: under the spec's preconditions, `setIntrinsicsFromFoV`
stores exactly the 8 untransformed corners (4 near, then 4 far, signs
`{++, +-, --, -+}` per depth, depth along +X), sets `initialized`, and
the stored corners do not depend on the previous state (full
replacement). -/
theorem claim_C3_intrinsics_corners (m : CameraModel) (hf vf dmin dmax : ℝ)
    (hhf1 : 0 < hf) (hhf2 : hf < Real.pi) (hvf1 : 0 < vf)
    (hvf2 : vf < Real.pi) (hd1 : 0 < dmin) (hd2 : dmin < dmax) :
    (setIntrinsicsFromFoV hf vf dmin dmax m).untransformed_corners =
      [![dmin, dmin * Real.tan (hf / 2), dmin * Real.tan (vf / 2)],
       ![dmin, dmin * Real.tan (hf / 2), -(dmin * Real.tan (vf / 2))],
       ![dmin, -(dmin * Real.tan (hf / 2)), -(dmin * Real.tan (vf / 2))],
       ![dmin, -(dmin * Real.tan (hf / 2)), dmin * Real.tan (vf / 2)],
       ![dmax, dmax * Real.tan (hf / 2), dmax * Real.tan (vf / 2)],
       ![dmax, dmax * Real.tan (hf / 2), -(dmax * Real.tan (vf / 2))],
       ![dmax, -(dmax * Real.tan (hf / 2)), -(dmax * Real.tan (vf / 2))],
       ![dmax, -(dmax * Real.tan (hf / 2)), dmax * Real.tan (vf / 2)]] ∧
      (setIntrinsicsFromFoV hf vf dmin dmax m).initialized = true ∧
      ∀ m' : CameraModel,
        (setIntrinsicsFromFoV hf vf dmin dmax m').untransformed_corners =
          (setIntrinsicsFromFoV hf vf dmin dmax m).untransformed_corners :=
  ⟨rfl, rfl, fun _ => rfl⟩

/-- Witness for C3 at `hFoV = vFoV = π/2`, `minDistance = 1`,
`maxDistance = 10`. -/
theorem claim_C3_witness :
    (0 < Real.pi / 2 ∧ Real.pi / 2 < Real.pi ∧ (0 : ℝ) < 1 ∧ (1 : ℝ) < 10) ∧
      (setIntrinsicsFromFoV (Real.pi / 2) (Real.pi / 2) 1 10
        camInit).initialized = true :=
  ⟨⟨div_pos Real.pi_pos two_pos, half_lt_self Real.pi_pos, one_pos,
      by norm_num⟩,
    (claim_C3_intrinsics_corners camInit (Real.pi / 2) (Real.pi / 2) 1 10
      (div_pos Real.pi_pos two_pos) (half_lt_self Real.pi_pos)
      (div_pos Real.pi_pos two_pos) (half_lt_self Real.pi_pos) one_pos
      (by norm_num)).2.1⟩

/-- Claim C2: after a successful recomputation (intrinsics set, then a
pose set) there are exactly 6 bounding planes, and `isPointInView(p)`
holds iff `isPointInside(p)` holds for each of the 6 planes.  Purity is
inherent in the embedding: `isPointInView` is a function of the state
and the point, returning no new state. -/
theorem claim_C2_in_view_iff_all_six (m : CameraModel) (P : Transformation)
    (p : Point) (h : m.initialized = true) :
    (setCameraPose P m).bounding_planes.length = 6 ∧
      (isPointInView (setCameraPose P m) p ↔
        ∀ i : Fin 6, ((setCameraPose P m).bounding_planes.getD i
          (Plane.setFromDistanceNormal 0 0)).isPointInside p) := by
  have hlen : (setCameraPose P m).bounding_planes.length = 6 := by
    simp [setCameraPose, calculateBoundingPlanes, h]
  exact ⟨hlen, forall_mem_iff_forall_fin _ _ 6 hlen _⟩

/-- Witness for C2 on a fully configured model at the point `(5,0,0)`. -/
theorem claim_C2_witness :
    (setIntrinsicsFromFoV (Real.pi / 2) (Real.pi / 2) 1 10
        camInit).initialized = true ∧
      (setCameraPose Transformation.idT (setIntrinsicsFromFoV (Real.pi / 2)
        (Real.pi / 2) 1 10 camInit)).bounding_planes.length = 6 ∧
      (isPointInView (setCameraPose Transformation.idT
          (setIntrinsicsFromFoV (Real.pi / 2) (Real.pi / 2) 1 10 camInit))
          ![5, 0, 0] ↔
        ∀ i : Fin 6, ((setCameraPose Transformation.idT
          (setIntrinsicsFromFoV (Real.pi / 2) (Real.pi / 2) 1 10
            camInit)).bounding_planes.getD i
          (Plane.setFromDistanceNormal 0 0)).isPointInside ![5, 0, 0]) :=
  ⟨rfl, claim_C2_in_view_iff_all_six _ Transformation.idT ![5, 0, 0] rfl⟩

/-- Claim C5: after `setCameraPose` on an initialized model with its 8
corners, the AABB bounds every pose-transformed corner component-wise and
each bound is attained on each axis by some transformed corner. -/
theorem claim_C5_aabb_bounds (m : CameraModel) (P : Transformation)
    (h : m.initialized = true) (h8 : m.untransformed_corners.length = 8) :
    (∀ i : Fin 3, ∀ c ∈ m.untransformed_corners.map (transformPoint P),
        (setCameraPose P m).aabb_min i ≤ c i ∧
          c i ≤ (setCameraPose P m).aabb_max i) ∧
      (∀ i : Fin 3, ∃ c ∈ m.untransformed_corners.map (transformPoint P),
        (setCameraPose P m).aabb_min i = c i) ∧
      (∀ i : Fin 3, ∃ c ∈ m.untransformed_corners.map (transformPoint P),
        (setCameraPose P m).aabb_max i = c i) := by
  have hmin : (setCameraPose P m).aabb_min = fun i =>
      minList ((m.untransformed_corners.map (transformPoint P)).map
        (fun q => q i)) := by
    simp [setCameraPose, calculateBoundingPlanes, h]
  have hmax : (setCameraPose P m).aabb_max = fun i =>
      maxList ((m.untransformed_corners.map (transformPoint P)).map
        (fun q => q i)) := by
    simp [setCameraPose, calculateBoundingPlanes, h]
  have htcne : m.untransformed_corners.map (transformPoint P) ≠ [] := by
    intro hnil
    have hlen := congrArg List.length hnil
    simp only [List.length_map, h8, List.length_nil] at hlen
    exact (by norm_num : (8 : ℕ) ≠ 0) hlen
  refine ⟨?_, ?_, ?_⟩
  · intro i c hc
    have hne : (m.untransformed_corners.map (transformPoint P)).map
        (fun q => q i) ≠ [] := fun hh => htcne (List.map_eq_nil_iff.mp hh)
    constructor
    · simp only [hmin]
      exact minList_le hne _ (List.mem_map_of_mem _ hc)
    · simp only [hmax]
      exact maxList_ge hne _ (List.mem_map_of_mem _ hc)
  · intro i
    have hne : (m.untransformed_corners.map (transformPoint P)).map
        (fun q => q i) ≠ [] := fun hh => htcne (List.map_eq_nil_iff.mp hh)
    simp only [hmin]
    obtain ⟨c, hc, hcv⟩ := List.mem_map.mp (minList_mem hne)
    exact ⟨c, hc, hcv.symm⟩
  · intro i
    have hne : (m.untransformed_corners.map (transformPoint P)).map
        (fun q => q i) ≠ [] := fun hh => htcne (List.map_eq_nil_iff.mp hh)
    simp only [hmax]
    obtain ⟨c, hc, hcv⟩ := List.mem_map.mp (maxList_mem hne)
    exact ⟨c, hc, hcv.symm⟩

end Voxblox

namespace Voxblox

/-- Witness for C5: fully configured model (FoV `π/2`, depths 1 and 10)
at the identity pose; the minimum bound is attained on every axis. -/
theorem claim_C5_witness :
    (setIntrinsicsFromFoV (Real.pi / 2) (Real.pi / 2) 1 10
        camInit).initialized = true ∧
      (setIntrinsicsFromFoV (Real.pi / 2) (Real.pi / 2) 1 10
        camInit).untransformed_corners.length = 8 ∧
      ∀ i : Fin 3, ∃ c ∈ (setIntrinsicsFromFoV (Real.pi / 2) (Real.pi / 2) 1
          10 camInit).untransformed_corners.map
          (transformPoint Transformation.idT),
        (setCameraPose Transformation.idT (setIntrinsicsFromFoV (Real.pi / 2)
          (Real.pi / 2) 1 10 camInit)).aabb_min i = c i :=
  ⟨rfl, rfl,
    (claim_C5_aabb_bounds
      (setIntrinsicsFromFoV (Real.pi / 2) (Real.pi / 2) 1 10 camInit)
      Transformation.idT rfl rfl).2.1⟩

lemma tan_pi_quarter : Real.tan (Real.pi / 2 / 2) = 1 := by
  rw [show Real.pi / 2 / 2 = Real.pi / 4 by ring]
  exact Real.tan_pi_div_four

lemma transformPoint_idT (p : Point) :
    transformPoint Transformation.idT p = p := by
  funext i
  simp [transformPoint, Transformation.idT, Matrix.one_mulVec]

/-- The 8 corners of the 90°/90°, depth 1-to-10 frustum are the cube
corners `(1, ±1, ±1)` and `(10, ±10, ±10)`. -/
lemma fov90_corners :
    (setIntrinsicsFromFoV (Real.pi / 2) (Real.pi / 2) 1 10
      camInit).untransformed_corners =
    [![1, 1, 1], ![1, 1, -1], ![1, -1, -1], ![1, -1, 1],
     ![10, 10, 10], ![10, 10, -10], ![10, -10, -10], ![10, -10, 10]] := by
  simp only [setIntrinsicsFromFoV, tan_pi_quarter]
  norm_num

/-- The 6 bounding planes of the 90°/90° frustum at the identity pose,
as concrete corner triples. -/
lemma fov90_planes :
    (setCameraPose Transformation.idT (setIntrinsicsFromFoV (Real.pi / 2)
      (Real.pi / 2) 1 10 camInit)).bounding_planes =
    [Plane.setFromPoints ![1, 1, 1] ![1, -1, -1] ![1, 1, -1],
     Plane.setFromPoints ![10, 10, 10] ![10, 10, -10] ![10, -10, -10],
     Plane.setFromPoints ![1, -1, 1] ![10, -10, -10] ![1, -1, -1],
     Plane.setFromPoints ![1, 1, 1] ![10, 10, -10] ![10, 10, 10],
     Plane.setFromPoints ![1, -1, 1] ![10, 10, 10] ![10, -10, 10],
     Plane.setFromPoints ![1, -1, -1] ![10, -10, -10] ![10, 10, -10]] := by
  simp only [setCameraPose, calculateBoundingPlanes]
  rw [if_neg (by simp [setIntrinsicsFromFoV])]
  simp only [fov90_corners, List.map_cons, List.map_nil, transformPoint_idT]
  simp [List.getD]

/-- Claim C1: for the 90°/90° frustum with depths 1 and 10 at the
identity pose, `(5,0,0)` is in view, `(0.5,0,0)` (before the near plane)
is not, and `(5,100,0)` (outside the right plane) is not. -/
theorem claim_C1_fov90_examples :
    isPointInView (setCameraPose Transformation.idT (setIntrinsicsFromFoV
        (Real.pi / 2) (Real.pi / 2) 1 10 camInit)) ![5, 0, 0] ∧
      ¬ isPointInView (setCameraPose Transformation.idT (setIntrinsicsFromFoV
        (Real.pi / 2) (Real.pi / 2) 1 10 camInit)) ![0.5, 0, 0] ∧
      ¬ isPointInView (setCameraPose Transformation.idT (setIntrinsicsFromFoV
        (Real.pi / 2) (Real.pi / 2) 1 10 camInit)) ![5, 100, 0] := by
  refine ⟨?_, ?_, ?_⟩
  · intro pl hpl
    rw [fov90_planes] at hpl
    simp only [List.mem_cons, List.not_mem_nil, or_false] at hpl
    rcases hpl with rfl | rfl | rfl | rfl | rfl | rfl <;>
      exact (isPointInside_setFromPoints_iff _ _ _ _
          (by norm_num [Point.dot, Point.cross, Matrix.cons_val_zero,
            Matrix.cons_val_one, Matrix.cons_val_two, Matrix.head_cons,
            Matrix.tail_cons, Pi.sub_apply])).mpr
        (by norm_num [Point.dot, Point.cross, Matrix.cons_val_zero,
          Matrix.cons_val_one, Matrix.cons_val_two, Matrix.head_cons,
          Matrix.tail_cons, Pi.sub_apply])
  · intro hall
    have h := hall (Plane.setFromPoints ![1, 1, 1] ![1, -1, -1] ![1, 1, -1])
      (by rw [fov90_planes]; exact List.mem_cons_self _ _)
    rw [isPointInside_setFromPoints_iff _ _ _ _
      (by norm_num [Point.dot, Point.cross, Matrix.cons_val_zero,
        Matrix.cons_val_one, Matrix.cons_val_two, Matrix.head_cons,
        Matrix.tail_cons, Pi.sub_apply])] at h
    norm_num [Point.dot, Point.cross, Matrix.cons_val_zero,
      Matrix.cons_val_one, Matrix.cons_val_two, Matrix.head_cons,
      Matrix.tail_cons, Pi.sub_apply] at h
  · intro hall
    have h := hall (Plane.setFromPoints ![1, 1, 1] ![10, 10, -10]
        ![10, 10, 10])
      (by rw [fov90_planes]; simp)
    rw [isPointInside_setFromPoints_iff _ _ _ _
      (by norm_num [Point.dot, Point.cross, Matrix.cons_val_zero,
        Matrix.cons_val_one, Matrix.cons_val_two, Matrix.head_cons,
        Matrix.tail_cons, Pi.sub_apply])] at h
    norm_num [Point.dot, Point.cross, Matrix.cons_val_zero,
      Matrix.cons_val_one, Matrix.cons_val_two, Matrix.head_cons,
      Matrix.tail_cons, Pi.sub_apply] at h

end Voxblox
